import Mathlib

/-!
# Verification of the docker-registry image-layer service (registry/images.py)

This file gives a shallow embedding of the layer lifecycle engine of the
registry: the tar-member serializer with union-filesystem whiteout handling
(`serialize_tar_info`, `read_tarfile`), the upload state machine
(`put_image_json`, `put_image_layer`), the files-inventory read path
(`get_image_files`), and the ancestry-walking diff engine
(`get_image_diff_core`, `get_image_diff_m`).

Conventions of the embedding:
* Python strings are Lean `String`s; the string primitives used by the code
  (`startswith`, slicing, `split`, concatenation) are modelled by the
  executable helpers `strStartsWith`, `strDrop`, `splitOnChar`, `strCat`,
  which operate on the underlying character list exactly as Python does.
* A Python dict is an association list built with overwriting insertion
  (`dictSet`); deletion (`dictDel`) removes the binding of a key; lookup
  (`dictGet`) finds the unique binding.
* Fallible Python code is embedded in `Except`: an uncaught Python
  exception that the route does not convert into an HTTP error is the
  `Response.crash` outcome (it surfaces as an internal server error).
* The pluggable object store is a per-image record `Store` of the blobs the
  code addresses through its path helpers; `put_content` / `remove` become
  record updates.  Checksum primitives (sha256, tarsum) are opaque streaming
  digests, so the digests computed during an upload are parameters.
-/

/-! ## Python string primitives -/

/-- Python `p.isprefix`-style check: `s.startswith(p)` on character lists. -/
def prefixCheck : List Char → List Char → Bool
  | [], _ => true
  | _ :: _, [] => false
  | a :: as, b :: bs => a == b && prefixCheck as bs

/-- Python `s.startswith(p)`. -/
def strStartsWith (s p : String) : Bool := prefixCheck p.data s.data

/-- Python slicing `s[n:]`. -/
def strDrop (s : String) (n : Nat) : String := String.mk (s.data.drop n)

/-- Python string concatenation `a + b`. -/
def strCat (a b : String) : String := String.mk (a.data ++ b.data)

/-- Python `s.split(c)` for a one-character separator. -/
def splitOnChar (c : Char) : List Char → List (List Char)
  | [] => [[]]
  | x :: xs =>
    if x = c then [] :: splitOnChar c xs
    else
      match splitOnChar c xs with
      | r :: rs => (x :: r) :: rs
      | [] => [[x]]

/-! ## Tar members and file-info tuples

`tarfile.TarInfo` is embedded as the fields the code reads: `name`, `type`
(the one-character tar type flag), `size`, `mtime`, `mode`, `uid`, `gid`.
A serialized inventory element is the tuple
`(filename, FILE_TYPES[type], is_deleted, size, mtime, mode, uid, gid)`;
we split it into the key (`path`) and the tail, mirroring
`_get_file_info_map`, which keys on element 0 and keeps elements 1..7. -/

structure TarInfo where
  name : String
  type : Char
  size : Nat
  mtime : Nat
  mode : Nat
  uid : Nat
  gid : Nat
deriving DecidableEq, Repr

/-- The tail of a serialized file-info tuple (elements 1..7). -/
structure FileTail where
  ftype : Char
  deleted : Bool
  size : Nat
  mtime : Nat
  mode : Nat
  uid : Nat
  gid : Nat
deriving DecidableEq, Repr

/-- A serialized file-info tuple: path (element 0) plus the tail. -/
structure FileInfo where
  path : String
  tail : FileTail
deriving DecidableEq, Repr

/-- Python exceptions that escape the functions we model. -/
inductive PyErr where
  | keyError
  | tarError
  | ioError
deriving DecidableEq, Repr

instance {ε α : Type} [DecidableEq ε] [DecidableEq α] : DecidableEq (Except ε α) := fun x y =>
  match x, y with
  | Except.ok a, Except.ok b =>
    if h : a = b then isTrue (by rw [h]) else isFalse (by intro hh; cases hh; exact h rfl)
  | Except.ok _, Except.error _ => isFalse (by intro h; cases h)
  | Except.error _, Except.ok _ => isFalse (by intro h; cases h)
  | Except.error a, Except.error b =>
    if h : a = b then isTrue (by rw [h]) else isFalse (by intro hh; cases hh; exact h rfl)

/-- The dict `FILE_TYPES` from tar type flags to inventory type letters.
`tarfile.REGTYPE` is `'0'`, `DIRTYPE` `'5'`, `LNKTYPE` `'1'`, `SYMTYPE`
`'2'`, `CHRTYPE` `'3'`, `BLKTYPE` `'4'`.  Any other flag (e.g. FIFOTYPE
`'6'`) is absent, and Python subscripting raises `KeyError`. -/
def FILE_TYPES : Char → Option Char
  | '0' => some 'f'
  | '5' => some 'd'
  | '1' => some 'l'
  | '2' => some 's'
  | '3' => some 'c'
  | '4' => some 'b'
  | _ => none

/-- First normalization step of `_serialize_tar_info`: `if filename == "."`. -/
def normalize1 (n : String) : String := if n = "." then "/" else n

/-- Second step: `if filename.startswith("./"): filename = "/" + filename[2:]`. -/
def normalize2 (n : String) : String :=
  if strStartsWith n "./" then strCat "/" (strDrop n 2) else n

/-- Third step: `if filename.startswith("/.wh."): filename = "/" + filename[5:]`
together with setting `is_deleted`. -/
def stripWhiteout (n : String) : String × Bool :=
  if strStartsWith n "/.wh." then (strCat "/" (strDrop n 5), true) else (n, false)

/-- Model of `_serialize_tar_info`: serialize one tar member to a file-info tuple.
`Except.error .keyError` models the `KeyError` that `FILE_TYPES[tar_info.type]`
raises on an unknown type flag; `.ok none` models the `return None` that
suppresses a member whose normalized name still begins `/.wh.`.  The name
checks run before the `FILE_TYPES` subscript, exactly as in the source,
where the tuple (whose second element performs the lookup) is only built
after the early `return None`. -/
def serialize_tar_info (t : TarInfo) : Except PyErr (Option FileInfo) :=
  let n1 := normalize2 (normalize1 t.name)
  let nd := stripWhiteout n1
  if strStartsWith nd.1 "/.wh." then Except.ok none
  else
    match FILE_TYPES t.type with
    | none => Except.error PyErr.keyError
    | some c =>
        Except.ok (some ⟨nd.1, ⟨c, nd.2, t.size, t.mtime, t.mode, t.uid, t.gid⟩⟩)

/-- Model of `_read_tarfile`: serialize every member, dropping the suppressed ones.
The list comprehension evaluates `_serialize_tar_info` member by member, so
the first `KeyError` aborts the whole read. -/
def read_tarfile : List TarInfo → Except PyErr (List FileInfo)
  | [] => Except.ok []
  | m :: ms =>
    match serialize_tar_info m with
    | Except.error e => Except.error e
    | Except.ok none => read_tarfile ms
    | Except.ok (some fi) =>
      match read_tarfile ms with
      | Except.error e => Except.error e
      | Except.ok rest => Except.ok (fi :: rest)

/-! ## Python dicts as association lists

`_get_file_info_map` builds `dict((fi[0], fi[1:]) for fi in file_infos)`:
repeated insertion with overwrite, so later duplicates win and keys are
unique.  `dictSet` overwrites in place, `dictDel` removes a key's binding,
`dictGet` looks a key up, `dictUpdate` is Python `dict.update`. -/

def dictSet {α : Type} : List (String × α) → String → α → List (String × α)
  | [], k, v => [(k, v)]
  | (k', v') :: rest, k, v =>
    if k' = k then (k', v) :: rest else (k', v') :: dictSet rest k v

def dictGet {α : Type} : List (String × α) → String → Option α
  | [], _ => none
  | (k', v') :: rest, k => if k' = k then some v' else dictGet rest k

def dictDel {α : Type} (d : List (String × α)) (k : String) : List (String × α) :=
  d.filter fun kv => kv.1 ≠ k

def dictUpdate {α : Type} (d e : List (String × α)) : List (String × α) :=
  e.foldl (fun acc kv => dictSet acc kv.1 kv.2) d

/-- The key list of a dict. -/
def dictKeys {α : Type} (d : List (String × α)) : List String := d.map Prod.fst

/-- Model of `_get_file_info_map`: index an inventory by path. -/
def get_file_info_map (file_infos : List FileInfo) : List (String × FileTail) :=
  file_infos.foldl (fun d fi => dictSet d fi.path fi.tail) []

/-! ## The diff engine (`_get_image_diff`) -/

/-- Accumulator of the diff walk: the three result dicts plus the remaining
top-layer map (`info_map` in the source, shrunk by `del`). -/
structure DiffAcc where
  deleted : List (String × FileTail)
  changed : List (String × FileTail)
  created : List (String × FileTail)
  top : List (String × FileTail)
deriving DecidableEq, Repr

/-- The final `{deleted, changed, created}` dict of dicts. -/
structure DiffResult where
  deleted : List (String × FileTail)
  changed : List (String × FileTail)
  created : List (String × FileTail)
deriving DecidableEq, Repr

/-- One iteration of the inner loop of `_get_image_diff`, for one
`(filename, info)` item of the snapshot.  `info[1]` is the `deleted` flag of
the tail tuple. -/
def diff_step (ancestor_map : List (String × FileTail)) (a : DiffAcc)
    (pi : String × FileTail) : DiffAcc :=
  if pi.2.deleted then
    { a with deleted := dictSet a.deleted pi.1 pi.2, top := dictDel a.top pi.1 }
  else
    match dictGet ancestor_map pi.1 with
    | some ancestor_info =>
      if ancestor_info.deleted then
        { a with created := dictSet a.created pi.1 pi.2, top := dictDel a.top pi.1 }
      else
        { a with changed := dictSet a.changed pi.1 pi.2, top := dictDel a.top pi.1 }
    | none => a

/-- One ancestor pass: `for filename, info in info_map.items()` iterates a
snapshot of the current top map (Python 2 `items()` copies), while the
`del info_map[filename]` statements shrink the live map. -/
def diff_pass (ancestor_map : List (String × FileTail)) (a : DiffAcc) : DiffAcc :=
  a.top.foldl (diff_step ancestor_map) a

/-- The pure diff computation of `_get_image_diff`: walk the ancestor
inventories (already restricted to `ancestry[1:]`), then
`created.update(info_map)`. -/
def get_image_diff_core (ancestor_lists : List (List FileInfo))
    (files : List FileInfo) : DiffResult :=
  let a := (ancestor_lists.map get_file_info_map).foldl
    (fun acc anc => diff_pass anc acc) ⟨[], [], [], get_file_info_map files⟩
  ⟨a.deleted, a.changed, dictUpdate a.created a.top⟩

/-! ### The diff engine as the specification words it

The claims state the walk as: per ancestor, each `(path, info)` still in the
top map moves to `deleted` when its flag is set, to `created` or `changed`
when the ancestor knows the path, and stays otherwise; at the end the
remainder moves to `created`.  `spec_diff` renders exactly those words with
filters; the equivalence with `get_image_diff_core` is proved below. -/

inductive FileAction where
  | toDeleted
  | toChanged
  | toCreated
  | stay
deriving DecidableEq, Repr

/-- Classification of one top-layer item against one ancestor inventory, as
the specification words it. -/
def spec_classify (ancestor_map : List (String × FileTail))
    (pi : String × FileTail) : FileAction :=
  if pi.2.deleted then FileAction.toDeleted
  else
    match dictGet ancestor_map pi.1 with
    | some ancestor_info =>
      if ancestor_info.deleted then FileAction.toCreated else FileAction.toChanged
    | none => FileAction.stay

/-- One ancestor pass, as the specification words it. -/
def spec_pass (ancestor_map : List (String × FileTail)) (st : DiffAcc) : DiffAcc :=
  { deleted := st.deleted ++
      st.top.filter (fun pi => spec_classify ancestor_map pi == FileAction.toDeleted)
    changed := st.changed ++
      st.top.filter (fun pi => spec_classify ancestor_map pi == FileAction.toChanged)
    created := st.created ++
      st.top.filter (fun pi => spec_classify ancestor_map pi == FileAction.toCreated)
    top := st.top.filter (fun pi => spec_classify ancestor_map pi == FileAction.stay) }

/-- The whole diff walk, as the specification words it. -/
def spec_diff (ancestor_lists : List (List FileInfo))
    (files : List FileInfo) : DiffResult :=
  let st := (ancestor_lists.map get_file_info_map).foldl
    (fun acc anc => spec_pass anc acc) ⟨[], [], [], get_file_info_map files⟩
  ⟨st.deleted, st.changed, st.created ++ st.top⟩

/-! ## JSON values, requests, responses, and the per-image store -/

/-- A parsed `simplejson` value. -/
inductive PyJson where
  | null
  | bool (b : Bool)
  | num (n : Int)
  | str (s : String)
  | arr (l : List PyJson)
  | obj (fields : List (String × PyJson))

/-- Python truthiness of a JSON value (`if not data`). -/
def pyTruthy : PyJson → Bool
  | PyJson.null => false
  | PyJson.bool b => b
  | PyJson.num n => n != 0
  | PyJson.str s => s != ""
  | PyJson.arr [] => false
  | PyJson.arr (_ :: _) => true
  | PyJson.obj [] => false
  | PyJson.obj (_ :: _) => true

/-- Python `isinstance(data, dict)`. -/
def isDict : PyJson → Bool
  | PyJson.obj _ => true
  | _ => false

/-- The fields of a JSON object (empty for non-objects; only used after the
`isinstance(data, dict)` guard). -/
def pyObjFields : PyJson → List (String × PyJson)
  | PyJson.obj fields => fields
  | _ => []

/-- Dict lookup on parsed JSON objects (`data.get(key)` / `key in data`). -/
def dictGetPy : List (String × PyJson) → String → Option PyJson
  | [], _ => none
  | (k', v') :: rest, k => if k' = k then some v' else dictGetPy rest k

/-- Python `image_id != data[...]` specialised to the comparison the code
makes: a `str` compares equal only to an equal `str`. -/
def pyIsStrEq : Option PyJson → String → Bool
  | some (PyJson.str s), t => s == t
  | _, _ => false

/-- Python `str(v)`, as used when a JSON value is spliced into a storage
path (`store.image_json_path(data['parent'])`). -/
def pyStr : PyJson → String
  | PyJson.null => "None"
  | PyJson.bool true => "True"
  | PyJson.bool false => "False"
  | PyJson.num n => toString n
  | PyJson.str s => s
  | PyJson.arr _ => "[...]"
  | PyJson.obj _ => "\x7b...\x7d"

/-- Truthiness of `data.get(key)` (absent keys give `None`, which is falsy). -/
def truthyOpt : Option PyJson → Bool
  | none => false
  | some v => pyTruthy v

/-- Python `str()` of `data.get(key)` under the truthiness guard. -/
def pyStrOpt : Option PyJson → String
  | none => "None"
  | some v => pyStr v

/-- The body of a `PUT json` request: either `json.loads` succeeds with a
value, or it raises `JSONDecodeError` (swallowed by the bare
`except json.JSONDecodeError: pass`). -/
inductive Body where
  | notJson
  | json (v : PyJson)

/-- The session repository gate input: either no repository name is in the
session, or one is, with its images list (`none` when reading the list
raises `IOError`). -/
inductive RepoSession where
  | noRepo
  | repo (images : Option (List String))

/-- A `PUT json` request: the parse outcome of the raw body, the raw body
itself (stored verbatim), the `X-Docker-Checksum` header, and the session
repository. -/
structure Request where
  body : Body
  raw : String
  checksumHeader : Option String
  sessionRepo : RepoSession

/-- An HTTP outcome: `toolkit.response(...)` (with optional raw payload),
`toolkit.api_error(message, code)`, or an uncaught Python exception that
the framework turns into an internal server error. -/
inductive Response where
  | ok (data : Option String)
  | apiError (msg : String) (code : Nat)
  | crash (exn : String)
deriving DecidableEq, Repr

/-- The per-image slice of the object store, plus the blobs of other images
the handlers consult (the parent's json and ancestry).  `layerContents`
holds the tar parse of the stored layer bytes: `none` when the layer blob is
missing (`IOError`), `some (Except.error ())` when `tarfile` raises
`TarError` on it, `some (Except.ok members)` otherwise. -/
structure Store where
  jsonContent : Option String
  layerExists : Bool
  markExists : Bool
  checksum : Option String
  filesCache : Option String
  ancestry : Option (List String)
  layerContents : Option (Except Unit (List TarInfo))
  parentJsonExists : String → Bool
  parentAncestry : String → Option (List String)

/-! ## `PUT /v1/images/(image_id)/json` -/

/-- Model of `store_checksum`: reject a checksum whose `':'`-split does not have
exactly two parts; otherwise overwrite the stored checksum blob.  Returns
the error message the caller forwards to `api_error`. -/
def store_checksum (checksum : String) (s : Store) : Store × Option String :=
  if (splitOnChar ':' checksum.data).length ≠ 2 then (s, some "Invalid checksum format")
  else ({ s with checksum := some checksum }, none)

/-- Model of `check_images_list`: the repository gate.  `True` when no repository is
in the session; `False` when the images list cannot be read; membership
otherwise. -/
def check_images_list (image_id : String) (sess : RepoSession) : Bool :=
  match sess with
  | RepoSession.noRepo => true
  | RepoSession.repo none => false
  | RepoSession.repo (some images_list) => image_id ∈ images_list

/-- Model of `generate_ancestry`: ancestry is `[image_id]` without a parent,
otherwise `image_id` prepended to the parent's ancestry; a missing parent
ancestry blob raises `IOError`. -/
def generate_ancestry (image_id : String) (parent_id : Option PyJson)
    (s : Store) : Except Unit Store :=
  if truthyOpt parent_id = false then Except.ok { s with ancestry := some [image_id] }
  else
    match s.parentAncestry (pyStrOpt parent_id) with
    | none => Except.error ()
    | some l => Except.ok { s with ancestry := some (image_id :: l) }

/-- Model of `put_image_json`.  Note two behaviours of the source preserved here:
(1) when `json.loads` raises, the bare `except ... pass` leaves `data`
unassigned and the following `if not data` raises `UnboundLocalError` (a
`NameError`), so the route crashes instead of answering `Invalid JSON`;
(2) the checksum header is stored -- or a stale checksum deleted -- right
after the `id`-presence check, before the id-match, repository-gate,
parent and conflict checks. -/
def put_image_json_rest (image_id : String) (req : Request)
    (fields : List (String × PyJson)) (s1 : Store) : Store × Response :=
  if pyIsStrEq (dictGetPy fields "id") image_id = false then
    (s1, Response.apiError "JSON data contains invalid id" 400)
  else if check_images_list image_id req.sessionRepo = false then
    (s1, Response.apiError "This image does not belong to the repository" 400)
  else
    let parent_id := dictGetPy fields "parent"
    if truthyOpt parent_id && !(s1.parentJsonExists (pyStrOpt parent_id)) then
      (s1, Response.apiError "Image depends on a non existing parent" 400)
    else if s1.jsonContent.isSome && !s1.markExists then
      (s1, Response.apiError "Image already exists" 409)
    else
      let s2 := { s1 with markExists := true, jsonContent := some req.raw }
      match generate_ancestry image_id parent_id s2 with
      | Except.ok s3 => (s3, Response.ok none)
      | Except.error _ => (s2, Response.crash "IOError")

def put_image_json (image_id : String) (req : Request) (s : Store) :
    Store × Response :=
  match req.body with
  | Body.notJson => (s, Response.crash "NameError")
  | Body.json data =>
    if !(pyTruthy data && isDict data) then (s, Response.apiError "Invalid JSON" 400)
    else
      let fields := pyObjFields data
      match dictGetPy fields "id" with
      | none => (s, Response.apiError "Missing key \x60id\x27 in JSON" 400)
      | some _ =>
        match (match req.checksumHeader with
               | some checksum => store_checksum checksum s
               | none => ({ s with checksum := none }, none)) with
        | (s1, some err) => (s1, Response.apiError err 400)
        | (s1, none) => put_image_json_rest image_id req fields s1

/-! ## `PUT /v1/images/(image_id)/layer` -/

/-- JSON rendering helpers modelling `json.dumps` on the inventory and diff
values (list separators as Python's defaults). -/
def jsonQuote (s : String) : String := strCat "\"" (strCat s "\"")

def dumpsBool (b : Bool) : String := if b then "true" else "false"

def jsonArr (parts : List String) : String :=
  strCat "[" (strCat (String.intercalate ", " parts) "]")

def dumpsTailParts (t : FileTail) : List String :=
  [jsonQuote (String.mk [t.ftype]), dumpsBool t.deleted, toString t.size,
    toString t.mtime, toString t.mode, toString t.uid, toString t.gid]

def dumpsFileInfo (f : FileInfo) : String :=
  jsonArr (jsonQuote f.path :: dumpsTailParts f.tail)

/-- Python `json.dumps` of a files inventory (a list of tuples). -/
def dumpsFiles (l : List FileInfo) : String := jsonArr (l.map dumpsFileInfo)

def jsonObjStr (kvs : List (String × String)) : String :=
  strCat "\x7b"
    (strCat (String.intercalate ", "
      (kvs.map fun kv => strCat (jsonQuote kv.1) (strCat ": " kv.2))) "\x7d")

/-- Python `json.dumps` of one of the three diff dicts. -/
def dumpsDict (d : List (String × FileTail)) : String :=
  jsonObjStr (d.map fun kv => (kv.1, jsonArr (dumpsTailParts kv.2)))

/-- Python `json.dumps` of the final three-dict diff value. -/
def dumpsDiff (d : DiffResult) : String :=
  jsonObjStr
    [("deleted", dumpsDict d.deleted), ("changed", dumpsDict d.changed),
      ("created", dumpsDict d.created)]

/-- The two digest candidates computed while streaming: the seeded sha256
always, the tarsum only when `compute_tarsum` did not raise. -/
def computed_csums (sha : String) (tarsum : Option String) : List String :=
  strCat "sha256:" sha :: (match tarsum with | some ts => [ts] | none => [])

/-- The files-cache blob after the upload's best-effort inventory pass:
unchanged when untarring or serializing raised (the bare
`except Exception` swallows it), replaced by the serialized inventory
otherwise. -/
def files_cache_after (fc : Option String)
    (uploaded : Except Unit (List TarInfo)) : Option String :=
  match uploaded with
  | Except.ok members =>
    match read_tarfile members with
    | Except.ok files => some (dumpsFiles files)
    | Except.error _ => fc
  | Except.error _ => fc

/-- Model of `put_image_layer`, after request routing.  The streamed body is
abstracted by what the handlers compute from it: `uploaded` is the tar
parse of the teed bytes (`Except.error` when `layer_archive`/`tarfile`
raises), `sha` the sha256 hex digest seeded with the image json, and
`tarsum` the tarsum digest (`none` when `compute_tarsum` raises, which the
source logs and swallows).  Failures while caching the file tree are
likewise swallowed by the bare `except Exception`. -/
def put_image_layer (s : Store) (uploaded : Except Unit (List TarInfo))
    (sha : String) (tarsum : Option String) : Store × Response :=
  match s.jsonContent with
  | none => (s, Response.apiError "Image not found" 404)
  | some _ =>
    if s.layerExists && !s.markExists then
      (s, Response.apiError "Image already exists" 409)
    else
      let s2 := { s with
        layerExists := true
        layerContents := some uploaded
        filesCache := files_cache_after s.filesCache uploaded }
      let csums := computed_csums sha tarsum
      match s2.checksum with
      | none => (s2, Response.ok none)
      | some checksum =>
        if checksum ∈ csums then
          ({ s2 with markExists := false }, Response.ok none)
        else
          (s2, Response.apiError "Checksum mismatch, ignoring the layer" 400)

/-- The session write `flask.session['checksum'] = csums` performed on the
no-stored-checksum path of `put_image_layer`; the source sets it just
before replying, and only on that path.  We record it alongside the
response. -/
def put_image_layer_session (s : Store) (sha : String)
    (tarsum : Option String) : Option (List String) :=
  match s.jsonContent with
  | none => none
  | some _ =>
    if s.layerExists && !s.markExists then none
    else
      match s.checksum with
      | none => some (computed_csums sha tarsum)
      | some _ => none

/-! ## `GET /v1/images/(image_id)/files` -/

/-- Model of `get_image_files` (public route) composed with its decorators and
`_get_image_files`: the `require_completion` gate answers while the mark
exists; a session repository that is private answers 404; then the files
cache is consulted, and on a miss the layer is downloaded and read.
`IOError` and `tarfile.TarError` are turned into HTTP errors by the route;
the `KeyError` of `FILE_TYPES[...]` is caught by neither `except` clause
and escapes as an internal error. -/
def get_image_files (s : Store) (repoPrivate : Option Bool) : Store × Response :=
  if s.markExists then
    (s, Response.apiError "Image is being uploaded, retry later" 400)
  else if repoPrivate = some true then
    (s, Response.apiError "Image not found" 404)
  else
    match s.filesCache with
    | some files_json => (s, Response.ok (some files_json))
    | none =>
      match s.layerContents with
      | none => (s, Response.apiError "Image not found" 404)
      | some (Except.error _) =>
        (s, Response.apiError "Layer format not supported" 400)
      | some (Except.ok members) =>
        match read_tarfile members with
        | Except.error PyErr.tarError =>
          (s, Response.apiError "Layer format not supported" 400)
        | Except.error PyErr.ioError => (s, Response.apiError "Image not found" 404)
        | Except.error PyErr.keyError => (s, Response.crash "KeyError")
        | Except.ok files =>
          ({ s with filesCache := some (dumpsFiles files) },
            Response.ok (some (dumpsFiles files)))

/-! ## The diff pipeline around `_get_image_diff` -/

/-- The inputs `_get_image_diff` reads: the diff cache, the image's
ancestry blob, and for each image id the parsed files inventory that
`json.loads(_get_image_files(id))` yields (`none` when that chain raises). -/
structure DiffEnv where
  imageId : String
  diffCache : Option String
  ancestry : Option (List String)
  filesOf : String → Option (List FileInfo)

/-- Load the inventories of `ancestry[1:]`, in order. -/
def ancestorsFiles (filesOf : String → Option (List FileInfo)) :
    List String → Option (List (List FileInfo))
  | [] => some []
  | id :: ids =>
    match filesOf id with
    | none => none
    | some files =>
      match ancestorsFiles filesOf ids with
      | none => none
      | some rest => some (files :: rest)

/-- Model of `_get_image_diff`: serve the cache when present; otherwise walk
`ancestry[1:]`, compute the diff, serialize it and persist it in the diff
cache.  Any `IOError` on the blobs it reads propagates. -/
def get_image_diff_m (e : DiffEnv) : DiffEnv × Except PyErr String :=
  match e.diffCache with
  | some diff_json => (e, Except.ok diff_json)
  | none =>
    match e.ancestry with
    | none => (e, Except.error PyErr.ioError)
    | some ancestryFull =>
      match e.filesOf e.imageId with
      | none => (e, Except.error PyErr.ioError)
      | some files =>
        match ancestorsFiles e.filesOf (ancestryFull.drop 1) with
        | none => (e, Except.error PyErr.ioError)
        | some ancestor_lists =>
          let diff_json := dumpsDiff (get_image_diff_core ancestor_lists files)
          ({ e with diffCache := some diff_json }, Except.ok diff_json)

/-! ## The diff walk preserves the set of paths

`accM` collects, as a multiset, every path currently classified (the three
result dicts) or still pending (the live top map).  Each ancestor pass
moves entries between the four dicts without creating or losing paths, so
`accM` is invariant; since it starts out duplicate-free (the keys of a
Python dict are unique), disjointness of the result dicts follows. -/

def accM (a : DiffAcc) : Multiset String :=
  (dictKeys a.deleted : Multiset String) + ↑(dictKeys a.changed) +
    ↑(dictKeys a.created) + ↑(dictKeys a.top)

/-- The keys the pass removes from the live top map. -/
def movedKeys (anc : List (String × FileTail)) (L : List (String × FileTail)) :
    List String :=
  (L.filter fun pi => spec_classify anc pi != FileAction.stay).map Prod.fst

/-- A substring check, used to exhibit a `/.wh.` segment inside a path. -/
def hasSegment (needle : List Char) : List Char → Bool
  | [] => prefixCheck needle []
  | x :: xs => prefixCheck needle (x :: xs) || hasSegment needle xs

/-- A two-image store for exercising the diff pipeline. -/
def c4Env : DiffEnv :=
  { imageId := "img"
    diffCache := none
    ancestry := some ["img", "anc"]
    filesOf := fun id =>
      if id = "img" then some [⟨"/a", ⟨'f', false, 1, 0, 0, 0, 0⟩⟩]
      else if id = "anc" then some [⟨"/a", ⟨'f', false, 2, 0, 0, 0, 0⟩⟩]
      else none }

/-- Whether the body parses into a truthy JSON dict that contains `id` --
the point in `put_image_json` after which the checksum blob is written or
deleted. -/
def body_has_id (b : Body) : Bool :=
  match b with
  | Body.notJson => false
  | Body.json data =>
    pyTruthy data && isDict data && (dictGetPy (pyObjFields data) "id").isSome

/-- A baseline in-progress image: json and mark present, no checksum. -/
def mkStore : Store :=
  { jsonContent := some "jsonblob"
    layerExists := false
    markExists := true
    checksum := none
    filesCache := none
    ancestry := none
    layerContents := none
    parentJsonExists := fun _ => false
    parentAncestry := fun _ => none }

/-! ## Claim C6: `PUT layer` -/

/-- Whether the stored checksum matches one of the computed candidates
(`checksum not in csums` in the source). -/
def checksumMatches : Option String → List String → Bool
  | some c, csums => decide (c ∈ csums)
  | none, _ => false

/-! ## Claim C7: `GET files` on an unsupported member type -/

/-- An image whose layer holds a regular member followed by a FIFO
member, placing the unsupported type away from the head of the archive. -/
def c7Store : Store :=
  { mkStore with
    markExists := false
    layerContents := some (Except.ok
      [⟨"./foo", '0', 1, 2, 3, 4, 5⟩, ⟨"fifo", '6', 0, 0, 0, 0, 0⟩]) }

/-- An image whose layer bytes `tarfile` cannot open at all. -/
def c7TarErrStore : Store :=
  { mkStore with
    markExists := false
    layerContents := some (Except.error ()) }

/-! ## Theorems -/

theorem prefixCheck_iff (p l : List Char) : prefixCheck p l = true ↔ ∃ t, l = p ++ t := by
  induction p generalizing l with
  | nil => simp [prefixCheck]
  | cons a as ih =>
    cases l with
    | nil => simp [prefixCheck]
    | cons b bs =>
      simp only [prefixCheck, Bool.and_eq_true, beq_iff_eq, ih]
      constructor
      · rintro ⟨rfl, t, rfl⟩; exact ⟨t, rfl⟩
      · rintro ⟨t, h⟩
        cases h
        exact ⟨rfl, t, rfl⟩

theorem strStartsWith_iff (s p : String) :
    strStartsWith s p = true ↔ ∃ t, s.data = p.data ++ t := by
  exact prefixCheck_iff p.data s.data

theorem strStartsWith_strCat_self (p r : String) :
    strStartsWith (strCat p r) p = true := by
  rw [strStartsWith_iff]
  exact ⟨r.data, rfl⟩

theorem strCat_data (a b : String) : (strCat a b).data = a.data ++ b.data := rfl

theorem string_mk_inj {a b : List Char} (h : String.mk a = String.mk b) : a = b := by
  cases h; rfl

example : serialize_tar_info ⟨"./foo", '0', 1, 2, 3, 4, 5⟩ =
    Except.ok (some ⟨"/foo", ⟨'f', false, 1, 2, 3, 4, 5⟩⟩) := by decide

example : serialize_tar_info ⟨"./.wh.bar", '0', 1, 2, 3, 4, 5⟩ =
    Except.ok (some ⟨"/bar", ⟨'f', true, 1, 2, 3, 4, 5⟩⟩) := by decide

example : serialize_tar_info ⟨".", '5', 0, 0, 0, 0, 0⟩ =
    Except.ok (some ⟨"/", ⟨'d', false, 0, 0, 0, 0, 0⟩⟩) := by decide

example : serialize_tar_info ⟨"foo", '0', 0, 0, 0, 0, 0⟩ =
    Except.ok (some ⟨"foo", ⟨'f', false, 0, 0, 0, 0, 0⟩⟩) := by decide

example : serialize_tar_info ⟨".wh..wh.foo", '0', 0, 0, 0, 0, 0⟩ =
    Except.ok (some ⟨".wh..wh.foo", ⟨'f', false, 0, 0, 0, 0, 0⟩⟩) := by decide

example : serialize_tar_info ⟨"./.wh..wh.foo", '0', 0, 0, 0, 0, 0⟩ =
    Except.ok none := by decide

example : serialize_tar_info ⟨"foo", '6', 0, 0, 0, 0, 0⟩ =
    Except.error PyErr.keyError := by decide

example :
    get_image_diff_core
      [[⟨"/x", 'f', true, 0, 0, 0, 0, 0⟩, ⟨"/z", 'f', false, 0, 0, 0, 0, 0⟩],
        [⟨"/x", 'f', false, 0, 0, 0, 0, 0⟩, ⟨"/y", 'f', false, 0, 0, 0, 0, 0⟩]]
      [⟨"/x", 'f', false, 1, 0, 0, 0, 0⟩, ⟨"/y", 'f', false, 2, 0, 0, 0, 0⟩] =
    ⟨[], [("/y", ⟨'f', false, 2, 0, 0, 0, 0⟩)],
      [("/x", ⟨'f', false, 1, 0, 0, 0, 0⟩)]⟩ := by decide

example :
    get_image_diff_core []
      [⟨"/x", 'f', true, 1, 0, 0, 0, 0⟩, ⟨"/y", 'f', false, 2, 0, 0, 0, 0⟩] =
    ⟨[], [], [("/x", ⟨'f', true, 1, 0, 0, 0, 0⟩), ("/y", ⟨'f', false, 2, 0, 0, 0, 0⟩)]⟩ := by
  decide

example :
    spec_diff
      [[⟨"/x", 'f', true, 0, 0, 0, 0, 0⟩, ⟨"/z", 'f', false, 0, 0, 0, 0, 0⟩],
        [⟨"/x", 'f', false, 0, 0, 0, 0, 0⟩, ⟨"/y", 'f', false, 0, 0, 0, 0, 0⟩]]
      [⟨"/x", 'f', false, 1, 0, 0, 0, 0⟩, ⟨"/y", 'f', false, 2, 0, 0, 0, 0⟩] =
    ⟨[], [("/y", ⟨'f', false, 2, 0, 0, 0, 0⟩)],
      [("/x", ⟨'f', false, 1, 0, 0, 0, 0⟩)]⟩ := by decide

/-! ## Dict lemmas -/

theorem dictSet_fresh {α : Type} (d : List (String × α)) (k : String) (v : α)
    (h : k ∉ dictKeys d) : dictSet d k v = d ++ [(k, v)] := by
  induction d with
  | nil => rfl
  | cons kv rest ih =>
    obtain ⟨k', v'⟩ := kv
    have hne : k' ≠ k := by
      intro hh
      exact h (by simp [dictKeys, hh])
    have hrest : k ∉ dictKeys rest := by
      intro hh
      exact h (by simp [dictKeys] at hh ⊢; exact Or.inr hh)
    simp [dictSet, hne, ih hrest]

theorem mem_dictKeys_dictSet {α : Type} (d : List (String × α)) (k : String)
    (v : α) (q : String) :
    q ∈ dictKeys (dictSet d k v) ↔ q ∈ dictKeys d ∨ q = k := by
  induction d with
  | nil => simp [dictSet, dictKeys]
  | cons kv rest ih =>
    obtain ⟨k', v'⟩ := kv
    by_cases hk : k' = k
    · subst hk
      simp [dictSet, dictKeys]
      tauto
    · simp [dictSet, hk, dictKeys] at ih ⊢
      tauto

theorem nodup_dictKeys_dictSet {α : Type} (d : List (String × α)) (k : String)
    (v : α) (h : (dictKeys d).Nodup) : (dictKeys (dictSet d k v)).Nodup := by
  induction d with
  | nil => simp [dictSet, dictKeys]
  | cons kv rest ih =>
    obtain ⟨k', v'⟩ := kv
    simp only [dictKeys, List.map_cons, List.nodup_cons] at h
    by_cases hk : k' = k
    · subst hk
      simpa [dictSet, dictKeys] using h
    · have := ih h.2
      simp only [dictSet, hk, if_false, dictKeys, List.map_cons, List.nodup_cons]
      refine ⟨?_, this⟩
      rw [show (dictSet rest k v).map Prod.fst = dictKeys (dictSet rest k v) from rfl,
        mem_dictKeys_dictSet]
      rintro (hmem | rfl)
      · exact h.1 hmem
      · exact hk rfl

theorem foldl_set_keys_mem (files : List FileInfo) :
    ∀ (d : List (String × FileTail)) (q : String),
    q ∈ dictKeys (files.foldl (fun d fi => dictSet d fi.path fi.tail) d) ↔
      q ∈ dictKeys d ∨ q ∈ files.map FileInfo.path := by
  induction files with
  | nil => intro d q; simp
  | cons f fs ih =>
    intro d q
    rw [List.foldl_cons, ih, mem_dictKeys_dictSet]
    simp only [List.map_cons, List.mem_cons]
    tauto

theorem foldl_set_keys_nodup (files : List FileInfo) :
    ∀ d : List (String × FileTail), (dictKeys d).Nodup →
    (dictKeys (files.foldl (fun d fi => dictSet d fi.path fi.tail) d)).Nodup := by
  induction files with
  | nil => intro d h; exact h
  | cons f fs ih =>
    intro d h
    exact ih _ (nodup_dictKeys_dictSet d f.path f.tail h)

theorem get_file_info_map_keys_mem (files : List FileInfo) (q : String) :
    q ∈ dictKeys (get_file_info_map files) ↔ q ∈ files.map FileInfo.path := by
  have := foldl_set_keys_mem files [] q
  simpa [get_file_info_map, dictKeys] using this

theorem get_file_info_map_keys_nodup (files : List FileInfo) :
    (dictKeys (get_file_info_map files)).Nodup :=
  foldl_set_keys_nodup files [] (by simp [dictKeys])

theorem dictUpdate_append {α : Type} (e : List (String × α)) :
    ∀ d : List (String × α), (dictKeys e).Nodup →
    (∀ q ∈ dictKeys e, q ∉ dictKeys d) → dictUpdate d e = d ++ e := by
  induction e with
  | nil => intro d _ _; simp [dictUpdate]
  | cons kv rest ih =>
    intro d hn hd
    simp only [dictKeys, List.map_cons, List.nodup_cons] at hn
    have hfresh : kv.1 ∉ dictKeys d := hd kv.1 (by simp [dictKeys])
    have step : dictUpdate d (kv :: rest) = dictUpdate (dictSet d kv.1 kv.2) rest := rfl
    rw [step, dictSet_fresh d kv.1 kv.2 hfresh,
      ih (d ++ [(kv.1, kv.2)]) hn.2 ?_]
    · simp
    · intro q hq
      rw [show dictKeys (d ++ [(kv.1, kv.2)]) = dictKeys d ++ [kv.1] by
        simp [dictKeys]]
      simp only [List.mem_append, List.mem_singleton]
      rintro (hmem | rfl)
      · exact hd q (by simp only [dictKeys, List.map_cons, List.mem_cons]; exact Or.inr hq) hmem
      · exact hn.1 hq

theorem coe_append_eq (l₁ l₂ : List String) :
    ((l₁ ++ l₂ : List String) : Multiset String) = ↑l₁ + ↑l₂ := rfl

theorem coe_cons_eq (x : String × FileTail) (l : List (String × FileTail)) :
    ((x :: l : List (String × FileTail)) : Multiset (String × FileTail)) =
      {x} + ↑l := rfl

theorem classify_partition (anc : List (String × FileTail))
    (T : List (String × FileTail)) :
    (↑(T.filter (fun pi => spec_classify anc pi == FileAction.toDeleted)) :
        Multiset (String × FileTail)) +
      ↑(T.filter (fun pi => spec_classify anc pi == FileAction.toChanged)) +
      ↑(T.filter (fun pi => spec_classify anc pi == FileAction.toCreated)) +
      ↑(T.filter (fun pi => spec_classify anc pi == FileAction.stay)) = ↑T := by
  induction T with
  | nil => rfl
  | cons x xs ih =>
    rcases hx : spec_classify anc x with _ | _ | _ | _
    · simp only [List.filter_cons, hx,
        show (FileAction.toDeleted == FileAction.toDeleted) = true from rfl,
        show (FileAction.toDeleted == FileAction.toChanged) = false from rfl,
        show (FileAction.toDeleted == FileAction.toCreated) = false from rfl,
        show (FileAction.toDeleted == FileAction.stay) = false from rfl,
        if_true, if_false]
      rw [coe_cons_eq, coe_cons_eq, ← ih]
      abel
    · simp only [List.filter_cons, hx,
        show (FileAction.toChanged == FileAction.toDeleted) = false from rfl,
        show (FileAction.toChanged == FileAction.toChanged) = true from rfl,
        show (FileAction.toChanged == FileAction.toCreated) = false from rfl,
        show (FileAction.toChanged == FileAction.stay) = false from rfl,
        if_true, if_false]
      rw [coe_cons_eq, coe_cons_eq, ← ih]
      abel
    · simp only [List.filter_cons, hx,
        show (FileAction.toCreated == FileAction.toDeleted) = false from rfl,
        show (FileAction.toCreated == FileAction.toChanged) = false from rfl,
        show (FileAction.toCreated == FileAction.toCreated) = true from rfl,
        show (FileAction.toCreated == FileAction.stay) = false from rfl,
        if_true, if_false]
      rw [coe_cons_eq, coe_cons_eq, ← ih]
      abel
    · simp only [List.filter_cons, hx,
        show (FileAction.stay == FileAction.toDeleted) = false from rfl,
        show (FileAction.stay == FileAction.toChanged) = false from rfl,
        show (FileAction.stay == FileAction.toCreated) = false from rfl,
        show (FileAction.stay == FileAction.stay) = true from rfl,
        if_true, if_false]
      rw [coe_cons_eq, coe_cons_eq, ← ih]
      abel

theorem keys_partition (anc : List (String × FileTail))
    (T : List (String × FileTail)) :
    (↑((T.filter (fun pi => spec_classify anc pi == FileAction.toDeleted)).map
        Prod.fst) : Multiset String) +
      ↑((T.filter (fun pi => spec_classify anc pi == FileAction.toChanged)).map
        Prod.fst) +
      ↑((T.filter (fun pi => spec_classify anc pi == FileAction.toCreated)).map
        Prod.fst) +
      ↑((T.filter (fun pi => spec_classify anc pi == FileAction.stay)).map
        Prod.fst) = ↑(T.map Prod.fst) := by
  have h := congrArg (Multiset.map Prod.fst) (classify_partition anc T)
  simpa only [Multiset.map_add, Multiset.map_coe] using h

theorem accM_spec_pass (anc : List (String × FileTail)) (a : DiffAcc) :
    accM (spec_pass anc a) = accM a := by
  unfold accM spec_pass
  simp only [dictKeys, List.map_append]
  rw [coe_append_eq, coe_append_eq, coe_append_eq, ← keys_partition anc a.top]
  abel

/-! ## The inner loop as a filter -/

theorem diff_step_eq (anc : List (String × FileTail)) (a : DiffAcc)
    (pi : String × FileTail) :
    diff_step anc a pi =
      match spec_classify anc pi with
      | FileAction.toDeleted =>
        { a with deleted := dictSet a.deleted pi.1 pi.2, top := dictDel a.top pi.1 }
      | FileAction.toChanged =>
        { a with changed := dictSet a.changed pi.1 pi.2, top := dictDel a.top pi.1 }
      | FileAction.toCreated =>
        { a with created := dictSet a.created pi.1 pi.2, top := dictDel a.top pi.1 }
      | FileAction.stay => a := by
  by_cases hd : pi.2.deleted
  · simp [diff_step, spec_classify, hd]
  · cases hg : dictGet anc pi.1 with
    | none => simp [diff_step, spec_classify, hd, hg]
    | some ai =>
      by_cases hai : ai.deleted
      · simp [diff_step, spec_classify, hd, hg, hai]
      · simp [diff_step, spec_classify, hd, hg, hai]

theorem mem_movedKeys (anc : List (String × FileTail))
    (L : List (String × FileTail)) (q : String) :
    q ∈ movedKeys anc L ↔
      ∃ pi ∈ L, pi.1 = q ∧ spec_classify anc pi ≠ FileAction.stay := by
  simp only [movedKeys, List.mem_map, List.mem_filter, bne_iff_ne]
  constructor
  · rintro ⟨pi, ⟨hmem, hne⟩, rfl⟩
    exact ⟨pi, hmem, rfl, hne⟩
  · rintro ⟨pi, hmem, rfl, hne⟩
    exact ⟨pi, ⟨hmem, hne⟩, rfl⟩

theorem decide_not_mem_cons (q k : String) (ks : List String) :
    (decide (q ∉ ks) && decide (q ≠ k)) = decide (q ∉ k :: ks) := by
  by_cases h1 : q = k <;> by_cases h2 : q ∈ ks <;> simp [h1, h2]

theorem inner_fold (anc : List (String × FileTail)) (L : List (String × FileTail)) :
    ∀ a : DiffAcc,
    (L.map Prod.fst).Nodup →
    (∀ p ∈ L.map Prod.fst,
      p ∉ dictKeys a.deleted ∧ p ∉ dictKeys a.changed ∧ p ∉ dictKeys a.created) →
    L.foldl (diff_step anc) a =
      { deleted := a.deleted ++
          L.filter (fun pi => spec_classify anc pi == FileAction.toDeleted),
        changed := a.changed ++
          L.filter (fun pi => spec_classify anc pi == FileAction.toChanged),
        created := a.created ++
          L.filter (fun pi => spec_classify anc pi == FileAction.toCreated),
        top := a.top.filter (fun kv => decide (kv.1 ∉ movedKeys anc L)) } := by
  induction L with
  | nil =>
    intro a _ _
    simp [movedKeys, List.filter_cons]
  | cons x xs ih =>
    intro a hnd hdisj
    simp only [List.map_cons, List.nodup_cons] at hnd
    have hx1 : x.1 ∉ dictKeys a.deleted ∧ x.1 ∉ dictKeys a.changed ∧
        x.1 ∉ dictKeys a.created :=
      hdisj x.1 (by simp)
    rw [List.foldl_cons, diff_step_eq]
    rcases hx : spec_classify anc x with _ | _ | _ | _
    · -- moved to deleted
      rw [ih _ (by exact hnd.2) ?_]
      · simp only [dictSet_fresh a.deleted x.1 x.2 hx1.1]
        simp only [List.filter_cons, hx,
          show (FileAction.toDeleted == FileAction.toDeleted) = true from rfl,
          show (FileAction.toDeleted == FileAction.toChanged) = false from rfl,
          show (FileAction.toDeleted == FileAction.toCreated) = false from rfl,
          if_true, if_false]
        refine DiffAcc.mk.injEq .. ▸ ?_
        refine ⟨by simp, rfl, rfl, ?_⟩
        rw [show movedKeys anc (x :: xs) = x.1 :: movedKeys anc xs by
          simp [movedKeys, List.filter_cons, hx]]
        rw [show dictDel a.top x.1 = a.top.filter (fun kv => decide (kv.1 ≠ x.1)) from rfl,
          List.filter_filter]
        exact List.filter_congr fun kv _ => decide_not_mem_cons kv.1 x.1 (movedKeys anc xs)
      · intro p hp
        have h3 := hdisj p (by simp [hp])
        refine ⟨?_, h3.2.1, h3.2.2⟩
        rw [show dictKeys (dictSet a.deleted x.1 x.2) =
          dictKeys (dictSet a.deleted x.1 x.2) from rfl, mem_dictKeys_dictSet]
        rintro (hmem | rfl)
        · exact h3.1 hmem
        · exact hnd.1 hp
    · -- moved to changed
      rw [ih _ (by exact hnd.2) ?_]
      · simp only [dictSet_fresh a.changed x.1 x.2 hx1.2.1]
        simp only [List.filter_cons, hx,
          show (FileAction.toChanged == FileAction.toDeleted) = false from rfl,
          show (FileAction.toChanged == FileAction.toChanged) = true from rfl,
          show (FileAction.toChanged == FileAction.toCreated) = false from rfl,
          if_true, if_false]
        refine DiffAcc.mk.injEq .. ▸ ?_
        refine ⟨rfl, by simp, rfl, ?_⟩
        rw [show movedKeys anc (x :: xs) = x.1 :: movedKeys anc xs by
          simp [movedKeys, List.filter_cons, hx]]
        rw [show dictDel a.top x.1 = a.top.filter (fun kv => decide (kv.1 ≠ x.1)) from rfl,
          List.filter_filter]
        exact List.filter_congr fun kv _ => decide_not_mem_cons kv.1 x.1 (movedKeys anc xs)
      · intro p hp
        have h3 := hdisj p (by simp [hp])
        refine ⟨h3.1, ?_, h3.2.2⟩
        rw [mem_dictKeys_dictSet]
        rintro (hmem | rfl)
        · exact h3.2.1 hmem
        · exact hnd.1 hp
    · -- moved to created
      rw [ih _ (by exact hnd.2) ?_]
      · simp only [dictSet_fresh a.created x.1 x.2 hx1.2.2]
        simp only [List.filter_cons, hx,
          show (FileAction.toCreated == FileAction.toDeleted) = false from rfl,
          show (FileAction.toCreated == FileAction.toChanged) = false from rfl,
          show (FileAction.toCreated == FileAction.toCreated) = true from rfl,
          if_true, if_false]
        refine DiffAcc.mk.injEq .. ▸ ?_
        refine ⟨rfl, rfl, by simp, ?_⟩
        rw [show movedKeys anc (x :: xs) = x.1 :: movedKeys anc xs by
          simp [movedKeys, List.filter_cons, hx]]
        rw [show dictDel a.top x.1 = a.top.filter (fun kv => decide (kv.1 ≠ x.1)) from rfl,
          List.filter_filter]
        exact List.filter_congr fun kv _ => decide_not_mem_cons kv.1 x.1 (movedKeys anc xs)
      · intro p hp
        have h3 := hdisj p (by simp [hp])
        refine ⟨h3.1, h3.2.1, ?_⟩
        rw [mem_dictKeys_dictSet]
        rintro (hmem | rfl)
        · exact h3.2.2 hmem
        · exact hnd.1 hp
    · -- stays
      rw [ih _ (by exact hnd.2) (fun p hp => hdisj p (by simp [hp]))]
      rw [show movedKeys anc (x :: xs) = movedKeys anc xs by
        simp [movedKeys, List.filter_cons, hx]]
      simp [List.filter_cons, hx]

/-! ## Pass equivalence and the outer walk -/

theorem accM_nodup_parts (a : DiffAcc) (h : (accM a).Nodup) :
    (dictKeys a.top).Nodup ∧
    (∀ q ∈ dictKeys a.top,
      q ∉ dictKeys a.deleted ∧ q ∉ dictKeys a.changed ∧ q ∉ dictKeys a.created) := by
  unfold accM at h
  rw [Multiset.nodup_add] at h
  obtain ⟨_, h2, h3⟩ := h
  refine ⟨Multiset.coe_nodup.mp h2, ?_⟩
  intro q hq
  have hq' : q ∈ (↑(dictKeys a.top) : Multiset String) := Multiset.mem_coe.mpr hq
  have hnot := Multiset.disjoint_left.mp h3.symm hq'
  simp only [Multiset.mem_add, Multiset.mem_coe, not_or] at hnot
  exact ⟨hnot.1.1, hnot.1.2, hnot.2⟩

theorem eq_of_dictKeys_nodup {α : Type} {L : List (String × α)}
    (h : (L.map Prod.fst).Nodup) {x y : String × α} (hx : x ∈ L) (hy : y ∈ L)
    (hk : x.1 = y.1) : x = y :=
  List.inj_on_of_nodup_map h hx hy hk

theorem diff_pass_eq_spec_pass (anc : List (String × FileTail)) (a : DiffAcc)
    (h : (accM a).Nodup) : diff_pass anc a = spec_pass anc a := by
  obtain ⟨hnd, hdisj⟩ := accM_nodup_parts a h
  unfold diff_pass spec_pass
  rw [inner_fold anc a.top a hnd hdisj]
  refine DiffAcc.mk.injEq .. ▸ ⟨rfl, rfl, rfl, ?_⟩
  refine List.filter_congr fun kv hkv => ?_
  by_cases hc : spec_classify anc kv = FileAction.stay
  · have : kv.1 ∉ movedKeys anc a.top := by
      rw [mem_movedKeys]
      rintro ⟨pi, hpi, hfst, hne⟩
      have : pi = kv := eq_of_dictKeys_nodup hnd hpi hkv hfst
      rw [this] at hne
      exact hne hc
    simp [this, hc]
  · have : kv.1 ∈ movedKeys anc a.top := by
      rw [mem_movedKeys]
      exact ⟨kv, hkv, rfl, hc⟩
    simp [this, hc]

theorem fold_pass_eq (ancMaps : List (List (String × FileTail))) :
    ∀ a : DiffAcc, (accM a).Nodup →
      ancMaps.foldl (fun acc anc => diff_pass anc acc) a =
        ancMaps.foldl (fun acc anc => spec_pass anc acc) a ∧
      accM (ancMaps.foldl (fun acc anc => spec_pass anc acc) a) = accM a := by
  induction ancMaps with
  | nil => intro a _; exact ⟨rfl, rfl⟩
  | cons anc rest ih =>
    intro a h
    rw [List.foldl_cons, List.foldl_cons, diff_pass_eq_spec_pass anc a h]
    have h' : (accM (spec_pass anc a)).Nodup := by
      rw [accM_spec_pass]; exact h
    obtain ⟨h1, h2⟩ := ih (spec_pass anc a) h'
    exact ⟨h1, by rw [h2, accM_spec_pass]⟩

theorem accM_init (files : List FileInfo) :
    accM ⟨[], [], [], get_file_info_map files⟩ =
      ↑(dictKeys (get_file_info_map files)) := by
  unfold accM
  simp [dictKeys]

/-- C4's core equivalence: the source's destructive walk computes exactly
the filter-based walk that the specification describes. -/
theorem get_image_diff_core_eq_spec (ancestor_lists : List (List FileInfo))
    (files : List FileInfo) :
    get_image_diff_core ancestor_lists files = spec_diff ancestor_lists files := by
  unfold get_image_diff_core spec_diff
  have hInv : (accM ⟨[], [], [], get_file_info_map files⟩).Nodup := by
    rw [accM_init]
    exact Multiset.coe_nodup.mpr (get_file_info_map_keys_nodup files)
  obtain ⟨h1, h2⟩ := fold_pass_eq (ancestor_lists.map get_file_info_map) _ hInv
  rw [h1]
  have hstN : (accM ((ancestor_lists.map get_file_info_map).foldl
      (fun acc anc => spec_pass anc acc) ⟨[], [], [], get_file_info_map files⟩)).Nodup := by
    rw [h2]; exact hInv
  obtain ⟨hndTop, hdisjTop⟩ := accM_nodup_parts _ hstN
  refine DiffResult.mk.injEq .. ▸ ⟨rfl, rfl, ?_⟩
  exact dictUpdate_append _ _ hndTop fun q hq => (hdisjTop q hq).2.2

/-! ## Name-normalization lemmas for the serializer -/

theorem string_eta (s : String) : String.mk s.data = s := by cases s; rfl

theorem serialize_eval (t : TarInfo) (c : Char) (hty : FILE_TYPES t.type = some c)
    (hng : strStartsWith (stripWhiteout (normalize2 (normalize1 t.name))).1 "/.wh." = false) :
    serialize_tar_info t =
      Except.ok (some ⟨(stripWhiteout (normalize2 (normalize1 t.name))).1,
        ⟨c, (stripWhiteout (normalize2 (normalize1 t.name))).2,
          t.size, t.mtime, t.mode, t.uid, t.gid⟩⟩) := by
  unfold serialize_tar_info
  dsimp only
  rw [hng, hty]
  simp

theorem serialize_suppressed (t : TarInfo)
    (h : strStartsWith (stripWhiteout (normalize2 (normalize1 t.name))).1 "/.wh." = true) :
    serialize_tar_info t = Except.ok none := by
  unfold serialize_tar_info
  dsimp only
  rw [h]
  simp

theorem strStartsWith_slash (n : String) :
    strStartsWith n "/" = true ↔ ∃ u, n.data = '/' :: u := by
  rw [strStartsWith_iff]
  constructor
  · rintro ⟨u, hu⟩; exact ⟨u, hu⟩
  · rintro ⟨u, hu⟩; exact ⟨u, hu⟩

theorem sw_slash_not_dotslash (n : String) (h : strStartsWith n "/" = true) :
    strStartsWith n "./" = false := by
  obtain ⟨u, hu⟩ := (strStartsWith_slash n).mp h
  cases hb : strStartsWith n "./" with
  | false => rfl
  | true =>
    exfalso
    obtain ⟨v, hv⟩ := (strStartsWith_iff n "./").mp hb
    rw [hu] at hv
    simp at hv

theorem ne_dot_of_slash (n : String) (h : strStartsWith n "/" = true) : n ≠ "." := by
  obtain ⟨u, hu⟩ := (strStartsWith_slash n).mp h
  intro hh
  rw [hh] at hu
  simp at hu

theorem normalize1_of_ne (n : String) (h : n ≠ ".") : normalize1 n = n := by
  unfold normalize1
  rw [if_neg h]

theorem normalize2_of_slash (n : String) (h : strStartsWith n "/" = true) :
    normalize2 n = n := by
  unfold normalize2
  rw [sw_slash_not_dotslash n h]
  simp

theorem norm12_of_slash (n : String) (h : strStartsWith n "/" = true) :
    normalize2 (normalize1 n) = n := by
  rw [normalize1_of_ne n (ne_dot_of_slash n h), normalize2_of_slash n h]

theorem strCat_dotslash_ne_dot (r : String) : strCat "./" r ≠ "." := by
  intro h
  have := congrArg String.data h
  rw [strCat_data] at this
  simp at this

theorem norm12_dotslash (r : String) :
    normalize2 (normalize1 (strCat "./" r)) = strCat "/" r := by
  rw [normalize1_of_ne _ (strCat_dotslash_ne_dot r)]
  unfold normalize2
  rw [strStartsWith_strCat_self "./" r]
  simp only [if_true]
  unfold strDrop strCat
  simp

theorem strCat_slash_sw (x : String) : strStartsWith (strCat "/" x) "/" = true :=
  strStartsWith_strCat_self "/" x

theorem strCat_whprefix_sw_slash (rest : String) :
    strStartsWith (strCat "/.wh." rest) "/" = true := by
  rw [strStartsWith_slash]
  exact ⟨'.' :: 'w' :: 'h' :: '.' :: rest.data, rfl⟩

theorem stripWhiteout_whprefix (rest : String) :
    stripWhiteout (strCat "/.wh." rest) = (strCat "/" rest, true) := by
  unfold stripWhiteout
  rw [strStartsWith_strCat_self "/.wh." rest]
  simp only [if_true]
  unfold strDrop strCat
  simp

theorem stripWhiteout_of_not (n : String)
    (h : strStartsWith n "/.wh." = false) : stripWhiteout n = (n, false) := by
  unfold stripWhiteout
  rw [h]
  simp

theorem stripWhiteout_slash (n : String) (h : strStartsWith n "/" = true) :
    strStartsWith (stripWhiteout n).1 "/" = true := by
  unfold stripWhiteout
  cases hb : strStartsWith n "/.wh." with
  | true => simpa using strCat_slash_sw (strDrop n 5)
  | false => simpa using h

theorem FILE_TYPES_mem (ty c : Char) (h : FILE_TYPES ty = some c) :
    c ∈ ['f', 'd', 'l', 's', 'c', 'b'] := by
  unfold FILE_TYPES at h
  split at h <;> first
    | (cases h; decide)
    | cases h

/-! ## Claims C2, C3, C9: the serializer -/

theorem serialize_eval2 (nm : String) (ty c : Char) (sz mt md u g : Nat)
    (p : String) (b : Bool) (hty : FILE_TYPES ty = some c)
    (hnorm : stripWhiteout (normalize2 (normalize1 nm)) = (p, b))
    (hng : strStartsWith p "/.wh." = false) :
    serialize_tar_info ⟨nm, ty, sz, mt, md, u, g⟩ =
      Except.ok (some ⟨p, ⟨c, b, sz, mt, md, u, g⟩⟩) := by
  unfold serialize_tar_info
  dsimp only
  rw [hnorm]
  dsimp only
  rw [hng, hty]
  simp

theorem dotslash_ne_dot (n : String) (h : strStartsWith n "./" = true) : n ≠ "." := by
  obtain ⟨u, hu⟩ := (strStartsWith_iff n "./").mp h
  intro hh
  rw [hh] at hu
  simp at hu

theorem norm12_sw_slash (n : String) (h : strStartsWith n "./" = true) :
    strStartsWith (normalize2 (normalize1 n)) "/" = true := by
  rw [normalize1_of_ne n (dotslash_ne_dot n h)]
  unfold normalize2
  rw [h]
  simp only [if_true]
  exact strCat_slash_sw _

/-- C3 (confirmed): serializing a tar member normalizes its name exactly as
claimed: the name `.` becomes `/`; a name `./`+rest becomes `/`+rest; a name
beginning `/.wh.` has the `.wh.` prefix stripped and the entry's deleted
flag set to true; a name that is exactly `/.wh.` after this transform
yields no entry; and a tar containing `./foo` and `./.wh.bar` yields the
entries `(/foo, f, false, …)` and `(/bar, f, true, …)`. -/
theorem c3_whiteout_normalization (r rest nm : String) (ty c : Char)
    (sz mt md u g : Nat) (hty : FILE_TYPES ty = some c) :
    serialize_tar_info ⟨".", ty, sz, mt, md, u, g⟩ =
      Except.ok (some ⟨"/", ⟨c, false, sz, mt, md, u, g⟩⟩) ∧
    (strStartsWith (strCat "/" r) "/.wh." = false →
      serialize_tar_info ⟨strCat "./" r, ty, sz, mt, md, u, g⟩ =
        Except.ok (some ⟨strCat "/" r, ⟨c, false, sz, mt, md, u, g⟩⟩)) ∧
    (strStartsWith (strCat "/" rest) "/.wh." = false →
      serialize_tar_info ⟨strCat "/.wh." rest, ty, sz, mt, md, u, g⟩ =
        Except.ok (some ⟨strCat "/" rest, ⟨c, true, sz, mt, md, u, g⟩⟩)) ∧
    ((stripWhiteout (normalize2 (normalize1 nm))).1 = "/.wh." →
      serialize_tar_info ⟨nm, ty, sz, mt, md, u, g⟩ = Except.ok none) ∧
    read_tarfile [⟨"./foo", '0', 1, 2, 3, 4, 5⟩, ⟨"./.wh.bar", '0', 1, 2, 3, 4, 5⟩] =
      Except.ok [⟨"/foo", ⟨'f', false, 1, 2, 3, 4, 5⟩⟩,
        ⟨"/bar", ⟨'f', true, 1, 2, 3, 4, 5⟩⟩] := by
  refine ⟨?_, ?_, ?_, ?_, by decide⟩
  · exact serialize_eval2 "." ty c sz mt md u g "/" false hty (by decide) (by decide)
  · intro h
    refine serialize_eval2 _ ty c sz mt md u g _ false hty ?_ h
    rw [norm12_dotslash r, stripWhiteout_of_not _ h]
  · intro h
    refine serialize_eval2 _ ty c sz mt md u g _ true hty ?_ h
    rw [norm12_of_slash _ (strCat_whprefix_sw_slash rest), stripWhiteout_whprefix rest]
  · intro h
    refine serialize_suppressed ⟨nm, ty, sz, mt, md, u, g⟩ ?_
    have hn : (⟨nm, ty, sz, mt, md, u, g⟩ : TarInfo).name = nm := rfl
    rw [hn, h]
    decide

theorem c3_whiteout_normalization_witness :
    serialize_tar_info ⟨".", '0', 0, 0, 0, 0, 0⟩ =
      Except.ok (some ⟨"/", ⟨'f', false, 0, 0, 0, 0, 0⟩⟩) ∧
    serialize_tar_info ⟨strCat "./" "foo", '0', 0, 0, 0, 0, 0⟩ =
      Except.ok (some ⟨strCat "/" "foo", ⟨'f', false, 0, 0, 0, 0, 0⟩⟩) ∧
    serialize_tar_info ⟨strCat "/.wh." "bar", '0', 0, 0, 0, 0, 0⟩ =
      Except.ok (some ⟨strCat "/" "bar", ⟨'f', true, 0, 0, 0, 0, 0⟩⟩) ∧
    serialize_tar_info ⟨"./.wh..wh.", '0', 0, 0, 0, 0, 0⟩ = Except.ok none ∧
    read_tarfile [⟨"./foo", '0', 1, 2, 3, 4, 5⟩, ⟨"./.wh.bar", '0', 1, 2, 3, 4, 5⟩] =
      Except.ok [⟨"/foo", ⟨'f', false, 1, 2, 3, 4, 5⟩⟩,
        ⟨"/bar", ⟨'f', true, 1, 2, 3, 4, 5⟩⟩] := by
  obtain ⟨h1, h2, h3, h4, h5⟩ :=
    c3_whiteout_normalization "foo" "bar" "./.wh..wh." '0' 'f' 0 0 0 0 0 (by decide)
  exact ⟨h1, h2 (by decide), h3 (by decide), h4 (by decide), h5⟩

/-- C2 (corrected): every tar member that produces an inventory entry has a
type letter in `{f,d,l,s,c,b}` and a path that does not begin with `/.wh.`;
and the path begins with `/` whenever the raw tar name is `.` or begins
with `./` or `/`.  The original claim fails for raw names beginning with
none of these: they are kept verbatim, so the path need not begin with `/`
and may retain interior `/.wh.` segments. -/
theorem c2_entry_shape (t : TarInfo) (e : FileInfo)
    (h : serialize_tar_info t = Except.ok (some e)) :
    e.tail.ftype ∈ ['f', 'd', 'l', 's', 'c', 'b'] ∧
    strStartsWith e.path "/.wh." = false ∧
    ((t.name = "." ∨ strStartsWith t.name "./" = true ∨
        strStartsWith t.name "/" = true) →
      strStartsWith e.path "/" = true) := by
  unfold serialize_tar_info at h
  dsimp only at h
  by_cases hg : strStartsWith (stripWhiteout (normalize2 (normalize1 t.name))).1
      "/.wh." = true
  · rw [if_pos hg] at h
    simp at h
  · rw [if_neg hg] at h
    simp only [Bool.not_eq_true] at hg
    cases hft : FILE_TYPES t.type with
    | none => rw [hft] at h; simp at h
    | some c =>
      rw [hft] at h
      have he : e = ⟨(stripWhiteout (normalize2 (normalize1 t.name))).1,
          ⟨c, (stripWhiteout (normalize2 (normalize1 t.name))).2,
            t.size, t.mtime, t.mode, t.uid, t.gid⟩⟩ := by
        injection h with h'
        injection h' with h''
        exact h''.symm
      subst he
      refine ⟨FILE_TYPES_mem t.type c hft, hg, ?_⟩
      rintro (hdot | hds | hsl)
      · rw [hdot]
        show strStartsWith (stripWhiteout (normalize2 (normalize1 "."))).1 "/" = true
        decide
      · exact stripWhiteout_slash _ (norm12_sw_slash t.name hds)
      · rw [norm12_of_slash t.name hsl]
        exact stripWhiteout_slash t.name hsl

theorem c2_entry_shape_witness :
    (⟨"/foo", ⟨'f', false, 1, 2, 3, 4, 5⟩⟩ : FileInfo).tail.ftype ∈
      ['f', 'd', 'l', 's', 'c', 'b'] ∧
    strStartsWith "/foo" "/.wh." = false ∧
    strStartsWith "/foo" "/" = true := by
  obtain ⟨h1, h2, h3⟩ := c2_entry_shape ⟨"./foo", '0', 1, 2, 3, 4, 5⟩
    ⟨"/foo", ⟨'f', false, 1, 2, 3, 4, 5⟩⟩ (by decide)
  exact ⟨h1, h2, h3 (by decide)⟩

/-- C2 (counterexample): the member named `a/.wh.b` produces an entry whose
path is kept verbatim -- it does not begin with `/` and it contains a
`/.wh.` segment, refuting the claimed invariant for members whose raw name
starts with neither `.` nor `./` nor `/`. -/
theorem c2_counterexample :
    serialize_tar_info ⟨"a/.wh.b", '0', 0, 0, 0, 0, 0⟩ =
      Except.ok (some ⟨"a/.wh.b", ⟨'f', false, 0, 0, 0, 0, 0⟩⟩) ∧
    strStartsWith "a/.wh.b" "/" = false ∧
    hasSegment "/.wh.".data "a/.wh.b".data = true := by decide

/-- C9 (corrected): a tar member whose name, after the `.`/`./`
normalization and one `.wh.`-prefix strip, still begins with `/.wh.`
produces no inventory entry, whatever its type flag.  The claim's example
is wrong, however: the bare name `.wh..wh.foo` (no leading `./` or `/`)
matches no whiteout rule and does produce an entry; `./.wh..wh.foo` is an
actual instance. -/
theorem c9_whiteout_suppression (t : TarInfo)
    (h : strStartsWith (stripWhiteout (normalize2 (normalize1 t.name))).1
      "/.wh." = true) :
    serialize_tar_info t = Except.ok none :=
  serialize_suppressed t h

theorem c9_whiteout_suppression_witness :
    serialize_tar_info ⟨"./.wh..wh.foo", '6', 0, 0, 0, 0, 0⟩ = Except.ok none :=
  c9_whiteout_suppression ⟨"./.wh..wh.foo", '6', 0, 0, 0, 0, 0⟩ (by decide)

/-- C9 (counterexample): the member named `.wh..wh.foo` -- the claim's own
example -- is not suppressed: no normalization step applies to it, so it
yields an entry with its name verbatim. -/
theorem c9_counterexample :
    serialize_tar_info ⟨".wh..wh.foo", '0', 0, 0, 0, 0, 0⟩ =
      Except.ok (some ⟨".wh..wh.foo", ⟨'f', false, 0, 0, 0, 0, 0⟩⟩) := by decide

/-! ## Claims C4, C5, C10: the diff engine -/

theorem diffacc_partition (a : DiffAcc) (base : List String)
    (hacc : accM a = ↑base) (hnd : (accM a).Nodup) :
    (∀ p : String, ¬(p ∈ dictKeys a.deleted ∧ p ∈ dictKeys a.changed)) ∧
    (∀ p : String, ¬(p ∈ dictKeys a.deleted ∧ p ∈ dictKeys (a.created ++ a.top))) ∧
    (∀ p : String, ¬(p ∈ dictKeys a.changed ∧ p ∈ dictKeys (a.created ++ a.top))) ∧
    (∀ p : String, (p ∈ dictKeys a.deleted ∨ p ∈ dictKeys a.changed ∨
      p ∈ dictKeys (a.created ++ a.top)) ↔ p ∈ base) := by
  have hsplit : dictKeys (a.created ++ a.top) =
      dictKeys a.created ++ dictKeys a.top := List.map_append ..
  have hl : (dictKeys a.deleted ++ (dictKeys a.changed ++
      (dictKeys a.created ++ dictKeys a.top))).Nodup := by
    rw [← Multiset.coe_nodup]
    have hco : ((dictKeys a.deleted ++ (dictKeys a.changed ++
        (dictKeys a.created ++ dictKeys a.top)) : List String) : Multiset String) =
        accM a := by
      rw [coe_append_eq, coe_append_eq, coe_append_eq]
      unfold accM
      abel
    rw [hco]
    exact hnd
  rw [List.nodup_append] at hl
  obtain ⟨_, hl2, hdisj1⟩ := hl
  rw [List.nodup_append] at hl2
  obtain ⟨_, _, hdisj2⟩ := hl2
  have hmem : ∀ p : String, (p ∈ dictKeys a.deleted ∨ p ∈ dictKeys a.changed ∨
      p ∈ dictKeys a.created ∨ p ∈ dictKeys a.top) ↔ p ∈ base := by
    intro p
    have hiff : p ∈ accM a ↔ p ∈ (↑base : Multiset String) := by rw [hacc]
    simpa [accM, Multiset.mem_add, Multiset.mem_coe, or_assoc] using hiff
  refine ⟨?_, ?_, ?_, ?_⟩
  · rintro p ⟨hp1, hp2⟩
    exact hdisj1 hp1 (List.mem_append_left _ hp2)
  · rintro p ⟨hp1, hp2⟩
    rw [hsplit] at hp2
    exact hdisj1 hp1 (List.mem_append_right _ hp2)
  · rintro p ⟨hp1, hp2⟩
    rw [hsplit] at hp2
    exact hdisj2 hp1 hp2
  · intro p
    rw [hsplit, List.mem_append, ← hmem p]

/-- C4 (confirmed): for an image whose files and ancestry exist (and no
diff is cached), `_get_image_diff` walks `ancestry[1:]` in order; within
each ancestor pass a still-pending top-layer entry with the deleted flag
moves to `deleted`, an entry present in the ancestor moves to `created`
when the ancestor's copy is marked deleted and to `changed` otherwise, and
any other entry stays; after all ancestors the remainder moves to
`created`; the result is serialized and persisted in the diff cache.
`spec_diff` is that walk stated in the specification's words, and the
computation equals it (`get_image_diff_core_eq_spec`). -/
theorem c4_diff_algorithm (e : DiffEnv) (ancestryFull : List String)
    (files : List FileInfo) (ancestor_lists : List (List FileInfo))
    (h1 : e.diffCache = none) (h2 : e.ancestry = some ancestryFull)
    (h3 : e.filesOf e.imageId = some files)
    (h4 : ancestorsFiles e.filesOf (ancestryFull.drop 1) = some ancestor_lists) :
    get_image_diff_m e =
      ({ e with diffCache := some (dumpsDiff (spec_diff ancestor_lists files)) },
        Except.ok (dumpsDiff (spec_diff ancestor_lists files))) := by
  unfold get_image_diff_m
  simp only [h1, h2, h3, h4]
  rw [get_image_diff_core_eq_spec]

theorem c4_diff_algorithm_witness :
    get_image_diff_m c4Env =
      ({ c4Env with diffCache := some (dumpsDiff (spec_diff
          [[⟨"/a", ⟨'f', false, 2, 0, 0, 0, 0⟩⟩]]
          [⟨"/a", ⟨'f', false, 1, 0, 0, 0, 0⟩⟩])) },
        Except.ok (dumpsDiff (spec_diff
          [[⟨"/a", ⟨'f', false, 2, 0, 0, 0, 0⟩⟩]]
          [⟨"/a", ⟨'f', false, 1, 0, 0, 0, 0⟩⟩]))) :=
  c4_diff_algorithm c4Env ["img", "anc"]
    [⟨"/a", ⟨'f', false, 1, 0, 0, 0, 0⟩⟩]
    [[⟨"/a", ⟨'f', false, 2, 0, 0, 0, 0⟩⟩]]
    rfl rfl (by decide) (by decide)

/-- C5 (confirmed): in every computed diff result the key sets of
`deleted`, `changed` and `created` are pairwise disjoint, and their union
is exactly the set of paths occurring in the top layer's files inventory. -/
theorem c5_diff_partition (ancestor_lists : List (List FileInfo))
    (files : List FileInfo) :
    (∀ p : String,
      ¬(p ∈ dictKeys (get_image_diff_core ancestor_lists files).deleted ∧
        p ∈ dictKeys (get_image_diff_core ancestor_lists files).changed)) ∧
    (∀ p : String,
      ¬(p ∈ dictKeys (get_image_diff_core ancestor_lists files).deleted ∧
        p ∈ dictKeys (get_image_diff_core ancestor_lists files).created)) ∧
    (∀ p : String,
      ¬(p ∈ dictKeys (get_image_diff_core ancestor_lists files).changed ∧
        p ∈ dictKeys (get_image_diff_core ancestor_lists files).created)) ∧
    (∀ p : String,
      (p ∈ dictKeys (get_image_diff_core ancestor_lists files).deleted ∨
        p ∈ dictKeys (get_image_diff_core ancestor_lists files).changed ∨
        p ∈ dictKeys (get_image_diff_core ancestor_lists files).created) ↔
      p ∈ files.map FileInfo.path) := by
  have hInv : (accM ⟨[], [], [], get_file_info_map files⟩).Nodup := by
    rw [accM_init]
    exact Multiset.coe_nodup.mpr (get_file_info_map_keys_nodup files)
  obtain ⟨-, h2⟩ := fold_pass_eq (ancestor_lists.map get_file_info_map) _ hInv
  have hnd : (accM ((ancestor_lists.map get_file_info_map).foldl
      (fun acc anc => spec_pass anc acc) ⟨[], [], [], get_file_info_map files⟩)).Nodup := by
    rw [h2]
    exact hInv
  have hacc : accM ((ancestor_lists.map get_file_info_map).foldl
      (fun acc anc => spec_pass anc acc) ⟨[], [], [], get_file_info_map files⟩) =
      ↑(dictKeys (get_file_info_map files)) := by
    rw [h2, accM_init]
  obtain ⟨q1, q2, q3, q4⟩ := diffacc_partition _ _ hacc hnd
  have hcore : get_image_diff_core ancestor_lists files =
      ⟨((ancestor_lists.map get_file_info_map).foldl
          (fun acc anc => spec_pass anc acc) ⟨[], [], [], get_file_info_map files⟩).deleted,
        ((ancestor_lists.map get_file_info_map).foldl
          (fun acc anc => spec_pass anc acc) ⟨[], [], [], get_file_info_map files⟩).changed,
        ((ancestor_lists.map get_file_info_map).foldl
          (fun acc anc => spec_pass anc acc) ⟨[], [], [], get_file_info_map files⟩).created ++
        ((ancestor_lists.map get_file_info_map).foldl
          (fun acc anc => spec_pass anc acc) ⟨[], [], [], get_file_info_map files⟩).top⟩ := by
    rw [get_image_diff_core_eq_spec]
    rfl
  rw [hcore]
  dsimp only
  refine ⟨q1, q2, q3, ?_⟩
  intro p
  exact (q4 p).trans (get_file_info_map_keys_mem files p)

/-- C10 (confirmed): when `ancestry[1:]` is empty the per-ancestor loop
never runs, so every top-layer inventory entry -- those with
`deleted = true` included -- is classified as `created`, and the `deleted`
and `changed` maps are empty. -/
theorem c10_no_ancestors_all_created (files : List FileInfo) :
    get_image_diff_core [] files = ⟨[], [], get_file_info_map files⟩ ∧
    (∀ p : String, p ∈ dictKeys (get_image_diff_core [] files).created ↔
      p ∈ files.map FileInfo.path) := by
  have h : get_image_diff_core [] files = ⟨[], [], get_file_info_map files⟩ := by
    unfold get_image_diff_core
    dsimp only [List.map_nil, List.foldl_nil]
    rw [dictUpdate_append (get_file_info_map files) []
      (get_file_info_map_keys_nodup files) (by intro q hq; simp [dictKeys])]
    simp
  refine ⟨h, ?_⟩
  intro p
  rw [h]
  exact get_file_info_map_keys_mem files p

/-! ## Claims C1, C8: `PUT json` -/

theorem generate_ancestry_checksum (image_id : String) (parent : Option PyJson)
    (s s' : Store) (h : generate_ancestry image_id parent s = Except.ok s') :
    s'.checksum = s.checksum := by
  unfold generate_ancestry at h
  split at h
  · injection h with h'
    rw [← h']
  · split at h
    · cases h
    · injection h with h'
      rw [← h']

theorem put_image_json_rest_checksum (image_id : String) (req : Request)
    (fields : List (String × PyJson)) (s1 : Store) :
    (put_image_json_rest image_id req fields s1).1.checksum = s1.checksum := by
  unfold put_image_json_rest
  split
  · rfl
  · split
    · rfl
    · dsimp only
      split
      · rfl
      · split
        · rfl
        · split
          · rename_i s3 heq
            exact (generate_ancestry_checksum _ _ _ _ heq).trans rfl
          · rfl

/-- C1 (corrected): `put_image_json` touches the stored checksum exactly
when the request body parses to a truthy JSON object containing `id`: at
that point a well-formed `X-Docker-Checksum` header is stored and a
missing header deletes any prior checksum -- even when the request is then
rejected for id mismatch, the repository gate, a missing parent, or
Conflict.  Only the earlier rejections (unparseable body, invalid JSON,
missing `id`, malformed checksum header) leave the checksum unchanged; the
original claim, which promised an unchanged checksum for every rejection,
is refuted by `c1_counterexample`. -/
theorem c1_put_json_checksum_effect (image_id : String) (req : Request)
    (s : Store) :
    (put_image_json image_id req s).1.checksum =
      (if body_has_id req.body then
        match req.checksumHeader with
        | some c =>
          if (splitOnChar ':' c.data).length = 2 then some c else s.checksum
        | none => none
      else s.checksum) := by
  cases hb : req.body with
  | notJson => simp [put_image_json, body_has_id, hb]
  | json data =>
    by_cases ht : (pyTruthy data && isDict data) = true
    · cases hid : dictGetPy (pyObjFields data) "id" with
      | none => simp [put_image_json, body_has_id, hb, ht, hid]
      | some v =>
        cases hch : req.checksumHeader with
        | none =>
          simp [put_image_json, body_has_id, hb, ht, hid, hch,
            put_image_json_rest_checksum]
        | some c =>
          by_cases hsp : (splitOnChar ':' c.data).length = 2
          · simp [put_image_json, body_has_id, hb, ht, hid, hch, store_checksum,
              hsp, put_image_json_rest_checksum]
          · simp [put_image_json, body_has_id, hb, ht, hid, hch, store_checksum,
              hsp]
    · have ht' : (pyTruthy data && isDict data) = false := by
        cases hq : (pyTruthy data && isDict data)
        · rfl
        · exact absurd hq ht
      simp [put_image_json, body_has_id, hb, ht']

/-- C1 (counterexample): a `PUT json` for image `a` whose body is the
object `(id = b)` and which carries `X-Docker-Checksum: sha256:x` is
rejected with `JSON data contains invalid id` -- yet the request has
already stored the checksum, which was previously absent. -/
theorem c1_counterexample :
    (put_image_json "a" ⟨Body.json (PyJson.obj [("id", PyJson.str "b")]),
        "raw", some "sha256:x", RepoSession.noRepo⟩ mkStore).2 =
      Response.apiError "JSON data contains invalid id" 400 ∧
    (put_image_json "a" ⟨Body.json (PyJson.obj [("id", PyJson.str "b")]),
        "raw", some "sha256:x", RepoSession.noRepo⟩ mkStore).1.checksum =
      some "sha256:x" ∧
    mkStore.checksum = none := by
  refine ⟨by decide, by decide, rfl⟩

/-- C8 (code_bug): when the body does not parse as JSON, the
`except json.JSONDecodeError: pass` leaves the local `data` unassigned and
the following `if not data` raises `UnboundLocalError` (a `NameError`):
the route crashes with an internal error instead of returning the
400 `Invalid JSON` answer that the claim -- and the code's evident
intent -- describe. -/
theorem c8_invalid_json_crash :
    put_image_json "a" ⟨Body.notJson, "not-json", none, RepoSession.noRepo⟩
        mkStore =
      (mkStore, Response.crash "NameError") ∧
    (put_image_json "a" ⟨Body.notJson, "not-json", none, RepoSession.noRepo⟩
        mkStore).2 ≠
      Response.apiError "Invalid JSON" 400 :=
  ⟨rfl, by decide⟩

/-- C6 (confirmed): once `put_image_layer` has streamed the body (the
request was not rejected for a missing json or as already finalized),
exactly one of three outcomes occurs: with no stored checksum the computed
digest candidates go into session state, the reply is success and the mark
stays; with a stored checksum equal to one of the candidates (sha256 or
tarsum) the mark is removed; with a stored checksum matching neither, an
error is returned and the mark stays. -/
theorem c6_put_layer_outcomes (s : Store) (uploaded : Except Unit (List TarInfo))
    (sha : String) (tarsum : Option String)
    (hjson : s.jsonContent ≠ none)
    (hgate : (s.layerExists && !s.markExists) = false) :
    (s.checksum = none →
      (put_image_layer s uploaded sha tarsum).2 = Response.ok none ∧
      (put_image_layer s uploaded sha tarsum).1.markExists = s.markExists ∧
      put_image_layer_session s sha tarsum = some (computed_csums sha tarsum)) ∧
    (s.checksum ≠ none →
      checksumMatches s.checksum (computed_csums sha tarsum) = true →
      (put_image_layer s uploaded sha tarsum).2 = Response.ok none ∧
      (put_image_layer s uploaded sha tarsum).1.markExists = false) ∧
    (s.checksum ≠ none →
      checksumMatches s.checksum (computed_csums sha tarsum) = false →
      (put_image_layer s uploaded sha tarsum).2 =
        Response.apiError "Checksum mismatch, ignoring the layer" 400 ∧
      (put_image_layer s uploaded sha tarsum).1.markExists = s.markExists) := by
  obtain ⟨j, hj⟩ := Option.ne_none_iff_exists'.mp hjson
  refine ⟨?_, ?_, ?_⟩
  · intro hnone
    refine ⟨?_, ?_, ?_⟩ <;>
      simp [put_image_layer, put_image_layer_session, hj, hgate, hnone]
  · intro hsome hmatch
    obtain ⟨c, hc⟩ := Option.ne_none_iff_exists'.mp hsome
    rw [hc] at hmatch
    simp only [checksumMatches, decide_eq_true_eq] at hmatch
    refine ⟨?_, ?_⟩ <;> simp [put_image_layer, hj, hgate, hc, hmatch]
  · intro hsome hmatch
    obtain ⟨c, hc⟩ := Option.ne_none_iff_exists'.mp hsome
    rw [hc] at hmatch
    simp only [checksumMatches, decide_eq_false_iff_not] at hmatch
    refine ⟨?_, ?_⟩ <;> simp [put_image_layer, hj, hgate, hc, hmatch]

theorem c6_put_layer_outcomes_witness :
    (put_image_layer mkStore (Except.error ()) "h" none).2 = Response.ok none ∧
    (put_image_layer mkStore (Except.error ()) "h" none).1.markExists = true ∧
    put_image_layer_session mkStore "h" none = some (computed_csums "h" none) := by
  obtain ⟨h1, -, -⟩ := c6_put_layer_outcomes mkStore (Except.error ()) "h" none
    (by decide) (by decide)
  exact h1 rfl

theorem serialize_error_eq (t : TarInfo) (e : PyErr)
    (h : serialize_tar_info t = Except.error e) : e = PyErr.keyError := by
  unfold serialize_tar_info at h
  dsimp only at h
  by_cases hg : strStartsWith (stripWhiteout (normalize2 (normalize1 t.name))).1
      "/.wh." = true
  · rw [if_pos hg] at h
    cases h
  · rw [if_neg hg] at h
    cases hft : FILE_TYPES t.type with
    | none =>
      rw [hft] at h
      injection h with h'
      exact h'.symm
    | some c =>
      rw [hft] at h
      cases h

theorem serialize_unknown_type (t : TarInfo)
    (h4 : FILE_TYPES t.type = none)
    (h5 : strStartsWith (stripWhiteout (normalize2 (normalize1 t.name))).1
      "/.wh." = false) :
    serialize_tar_info t = Except.error PyErr.keyError := by
  unfold serialize_tar_info
  dsimp only
  rw [h5, h4]
  simp

theorem read_tarfile_error_eq (members : List TarInfo) (e : PyErr)
    (h : read_tarfile members = Except.error e) : e = PyErr.keyError := by
  induction members with
  | nil => cases h
  | cons x xs ih =>
    unfold read_tarfile at h
    cases hs : serialize_tar_info x with
    | error e' =>
      rw [hs] at h
      injection h with h'
      exact h' ▸ serialize_error_eq x e' hs
    | ok r =>
      rw [hs] at h
      cases r with
      | none => exact ih h
      | some fi =>
        cases hr : read_tarfile xs with
        | error e'' =>
          rw [hr] at h
          injection h with h'
          rw [h'] at hr
          exact ih hr
        | ok rest =>
          rw [hr] at h
          cases h

theorem read_tarfile_keyError (members : List TarInfo)
    (h : ∃ t, t ∈ members ∧ FILE_TYPES t.type = none ∧
      strStartsWith (stripWhiteout (normalize2 (normalize1 t.name))).1
        "/.wh." = false) :
    read_tarfile members = Except.error PyErr.keyError := by
  induction members with
  | nil =>
    obtain ⟨t, ht, -, -⟩ := h
    cases ht
  | cons x xs ih =>
    obtain ⟨t, ht, h4, h5⟩ := h
    unfold read_tarfile
    cases hs : serialize_tar_info x with
    | error e => rw [serialize_error_eq x e hs]
    | ok r =>
      have hmem : t ∈ xs := by
        rcases List.mem_cons.mp ht with rfl | hxs
        · exfalso
          rw [serialize_unknown_type t h4 h5] at hs
          cases hs
        · exact hxs
      have hih := ih ⟨t, hmem, h4, h5⟩
      cases r with
      | none => exact hih
      | some fi => rw [hih]

/-- C7 (corrected): a tar member whose type flag is outside
`{regular, directory, hardlink, symlink, char, block}` (a FIFO, say), at
any position in an archive that `tarfile` itself opens, makes
`FILE_TYPES[...]` raise `KeyError` -- which neither `except IOError` nor
`except tarfile.TarError` catches -- so `GET files` surfaces an internal
failure, not the 400 `Layer format not supported` answer the claim
describes; and whenever `GET files` does answer that 400, the layer's tar
failed to open (the `read_tarfile` walk never raises `TarError`). -/
theorem c7_unknown_type_crash (s s' : Store) (t : TarInfo)
    (members : List TarInfo)
    (h1 : s.markExists = false) (h2 : s.filesCache = none)
    (h3 : s.layerContents = some (Except.ok members))
    (hmem : t ∈ members)
    (h4 : FILE_TYPES t.type = none)
    (h5 : strStartsWith (stripWhiteout (normalize2 (normalize1 t.name))).1
      "/.wh." = false)
    (h6 : (get_image_files s' none).2 =
      Response.apiError "Layer format not supported" 400) :
    (get_image_files s none).2 = Response.crash "KeyError" ∧
    (get_image_files s none).2 ≠
      Response.apiError "Layer format not supported" 400 ∧
    s'.layerContents = some (Except.error ()) := by
  have hread : read_tarfile members = Except.error PyErr.keyError :=
    read_tarfile_keyError members ⟨t, hmem, h4, h5⟩
  have hmain : (get_image_files s none).2 = Response.crash "KeyError" := by
    simp [get_image_files, h1, h2, h3, hread]
  refine ⟨hmain, by rw [hmain]; decide, ?_⟩
  cases hm : s'.markExists with
  | true =>
    rw [show (get_image_files s' none).2 =
        Response.apiError "Image is being uploaded, retry later" 400 from by
      simp [get_image_files, hm]] at h6
    exact absurd h6 (by decide)
  | false =>
    cases hfc : s'.filesCache with
    | some fj =>
      rw [show (get_image_files s' none).2 = Response.ok (some fj) from by
        simp [get_image_files, hm, hfc]] at h6
      cases h6
    | none =>
      cases hlc : s'.layerContents with
      | none =>
        rw [show (get_image_files s' none).2 =
            Response.apiError "Image not found" 404 from by
          simp [get_image_files, hm, hfc, hlc]] at h6
        exact absurd h6 (by decide)
      | some parsed =>
        cases parsed with
        | error u =>
          cases u
          rfl
        | ok ms =>
          cases hr : read_tarfile ms with
          | ok files =>
            rw [show (get_image_files s' none).2 =
                Response.ok (some (dumpsFiles files)) from by
              simp [get_image_files, hm, hfc, hlc, hr]] at h6
            cases h6
          | error e =>
            have he : e = PyErr.keyError := read_tarfile_error_eq ms e hr
            rw [he] at hr
            rw [show (get_image_files s' none).2 = Response.crash "KeyError" from by
              simp [get_image_files, hm, hfc, hlc, hr]] at h6
            exact absurd h6 (by decide)

theorem c7_unknown_type_crash_witness :
    (get_image_files c7Store none).2 = Response.crash "KeyError" ∧
    (get_image_files c7Store none).2 ≠
      Response.apiError "Layer format not supported" 400 ∧
    c7TarErrStore.layerContents = some (Except.error ()) :=
  c7_unknown_type_crash c7Store c7TarErrStore ⟨"fifo", '6', 0, 0, 0, 0, 0⟩
    [⟨"./foo", '0', 1, 2, 3, 4, 5⟩, ⟨"fifo", '6', 0, 0, 0, 0, 0⟩]
    rfl rfl rfl (by decide) (by decide) (by decide) (by decide)

/-- C7 (counterexample): on the concrete store whose layer holds a regular
member followed by a FIFO member, `GET files` crashes with `KeyError`
instead of answering the 400 `Layer format not supported` that the claim
asserts. -/
theorem c7_counterexample :
    (get_image_files c7Store none).2 = Response.crash "KeyError" ∧
    (get_image_files c7Store none).2 ≠
      Response.apiError "Layer format not supported" 400 := by
  refine ⟨by decide, by decide⟩
